import Mathlib

/-!
# Verification of the Segment/Synapse engine of `tcw/htm` (`segment.go`)

Shallow embedding conventions:
* Go `float64` arithmetic is modelled exactly over `ℚ` (the spec formulas are
  exact-arithmetic statements; no rounding is modelled).
* Go `int` is modelled as `ℤ`; Go slice positions as `ℕ`.
* A Go runtime panic (explicit `panic`, slice index out of range, `make` with a
  negative length, or a panic raised inside a called library function) is
  modelled as `Option.none`; a normal return is `Option.some`.
* The `Segment` carries a back-reference `tp` to its owning `TemporalPooler`;
  the fields of that shared context which `segment.go` reads
  (`lrnIterationIdx`, `params.PermanenceMax`, `params.NewSynapseCount`, and the
  id counter behind `GetSegId`) are modelled as the explicit `TpState`
  parameter.  Mutation of a segment is modelled by returning the new segment.
-/

namespace Htm

/-- `var SegmentDutyCycleTiers = []int{0, 100, 320, 1000, 3200, 10000, 32000,
100000, 320000}` from `segment.go`. -/
def SegmentDutyCycleTiers : List Int :=
  [0, 100, 320, 1000, 3200, 10000, 32000, 100000, 320000]

/-- `var SegmentDutyCycleAlphas = []float64{0, 0.0032, 0.0010, 0.00032,
0.00010, 0.000032, 0.00001, 0.0000032, 0.0000010}` from `segment.go`. -/
def SegmentDutyCycleAlphas : List ℚ :=
  [0, 0.0032, 0.0010, 0.00032, 0.00010, 0.000032, 0.00001, 0.0000032, 0.0000010]

/-- `type Synapse struct` from `segment.go`. -/
structure Synapse where
  SrcCellCol : Int
  SrcCellIdx : Int
  Permanence : ℚ
deriving DecidableEq

/-- The fields of `TemporalPoolerParams` that `segment.go` reads.
`Verbosity` only gates debug printing (I/O), which has no effect on the
returned values and is not modelled. -/
structure TpParams where
  PermanenceMax : ℚ
  NewSynapseCount : Int
deriving DecidableEq

/-- The fields of the owning `TemporalPooler` that `segment.go` reads through
the segment's `tp` back-reference.  `nextSegId` models the counter behind
`tp.GetSegId()` (the `TemporalPooler` implementation is outside `segment.go`;
per the spec a segment is "identified by a process-unique id" handed out by
the owning pooler). -/
structure TpState where
  lrnIterationIdx : Int
  nextSegId : Int
  params : TpParams
deriving DecidableEq

/-- `type Segment struct` from `segment.go` (minus the `tp` back-reference,
which is passed explicitly as a `TpState`). -/
structure Segment where
  segId : Int
  isSequenceSeg : Bool
  lastActiveIteration : Int
  positiveActivations : Int
  totalActivations : Int
  lastPosDutyCycle : ℚ
  lastPosDutyCycleIteration : Int
  syns : List Synapse
deriving DecidableEq

/-- `func NewSegment(tp *TemporalPooler, isSequenceSeg bool) *Segment` from
`segment.go`.  `seg.segId = tp.GetSegId()` is modelled by taking the pooler's
next id; the synapse collection is left uninitialized in the source
(`//TODO: initialize synapse collection`), i.e. a nil slice, modelled as `[]`.
Note the unguarded division `1.0 / float64(tp.lrnIterationIdx)`. -/
def NewSegment (tp : TpState) (isSequenceSeg : Bool) : Segment :=
  { segId := tp.nextSegId
    isSequenceSeg := isSequenceSeg
    lastActiveIteration := tp.lrnIterationIdx
    positiveActivations := 1
    totalActivations := 1
    lastPosDutyCycle := 1 / (tp.lrnIterationIdx : ℚ)
    lastPosDutyCycleIteration := tp.lrnIterationIdx
    syns := [] }

/-- The Go loop
`for i := len(SegmentDutyCycleTiers) - 1; i > 0; i-- { if idx > Tiers[i] { alpha = Alphas[i]; break } }`
in `dutyCycle`, translated over the descending list of loop counter values.
Falling off the loop without a break leaves `alpha` at its initial `0.0`. -/
def alphaScanGo (idx : Int) : List Nat → ℚ
  | [] => 0
  | i :: rest =>
    if SegmentDutyCycleTiers.getD i 0 < idx then SegmentDutyCycleAlphas.getD i 0
    else alphaScanGo idx rest

/-- The alpha selected by `dutyCycle` in `segment.go`: the loop counter runs
`i = 8, 7, ..., 1`. -/
def segAlpha (idx : Int) : ℚ := alphaScanGo idx [8, 7, 6, 5, 4, 3, 2, 1]

/-- `func (s *Segment) dutyCycle(active, readOnly bool) float64` from
`segment.go`.  Returns the computed duty cycle together with the
(possibly cache-updated) segment.  `math.Pow(1.0-alpha, float64(age))` with an
integer `age` is modelled by `zpow` over `ℚ` (exact for the positive base
`1 - alpha`). -/
def dutyCycle (tp : TpState) (s : Segment) (active readOnly : Bool) : ℚ × Segment :=
  if tp.lrnIterationIdx ≤ SegmentDutyCycleTiers.getD 1 0 then
    let dc : ℚ := (s.positiveActivations : ℚ) / (tp.lrnIterationIdx : ℚ)
    if readOnly then (dc, s)
    else (dc, { s with lastPosDutyCycleIteration := tp.lrnIterationIdx,
                       lastPosDutyCycle := dc })
  else
    let age := tp.lrnIterationIdx - s.lastPosDutyCycleIteration
    if age = 0 ∧ active = false then (s.lastPosDutyCycle, s)
    else
      let alpha := segAlpha tp.lrnIterationIdx
      let dc0 : ℚ := (1 - alpha) ^ age * s.lastPosDutyCycle
      let dc : ℚ := if active then dc0 + alpha else dc0
      if readOnly then (dc, s)
      else (dc, { s with lastPosDutyCycleIteration := tp.lrnIterationIdx,
                         lastPosDutyCycle := dc })

/-- Modelled from the spec: `utils.ContainsInt(i, list)` (the `utils` package
of this repository is not under `src/`); per the spec's description of
`freeNSynapses`, the active subset is the set of synapse positions *not in*
the inactive index list, so `ContainsInt` is list membership. -/
def containsInt (i : Int) (l : List Int) : Bool := l.contains i

/-- The caller-visible effect of `floats.Argsort(dst, inds)` (external gonum
library) on the local variable passed as `inds`.  The library's contract:
it fills `inds` with the initial positions of the elements of `dst` after
sorting `dst` ascending, and it panics when `len(dst) != len(inds)`.
In `segment.go` every call site passes a `var indexes []int` that was never
allocated: a nil slice of length 0.  A Go callee receives the slice header by
value and therefore can never make the caller's nil slice non-empty; so
whenever `dst` is non-empty the call panics inside the library (length
mismatch), and even under a hypothetical non-checking implementation the
caller's `indexes` would remain empty and the subsequent `indexes[i]` reads
would panic with index out of range.  Either way the surrounding call aborts
at the same inputs.  The sort order used here (stable, by key ascending) is
immaterial: the only reachable successful case is `dst = []`. -/
def argsortGo (dst : List ℚ) (inds : List Nat) : Option (List Nat) :=
  if dst.length = inds.length then
    some ((List.range dst.length).mergeSort
      (fun i j => decide (dst.getD i 0 ≤ dst.getD j 0)))
  else none

/-- The loop `for idx := range perms { perms[idx] = s.syns[idx].Permanence }`
in `freeNSynapses` (note: positional `s.syns[idx]`, *not*
`s.syns[list[idx]]`): reads the permanences of the first `n` synapses,
panicking (`none`) if `n` exceeds the synapse count. -/
def permsOfPositions (syns : List Synapse) (n : Nat) : Option (List ℚ) :=
  (List.range n).mapM (fun idx => (syns.get? idx).map Synapse.Permanence)

/-- `func (s *Segment) freeNSynapses(numToFree int, inactiveSynapseIndices
[]int)` from `segment.go`.  `none` models a panic:
* the explicit `panic("Number to free cannot be larger than existing synapses.")`;
* `make([]int, cSize)` with a negative `cSize`;
* the nil `indexes` slice passed to `floats.Argsort` (see `argsortGo`) and the
  out-of-range reads of it;
* out-of-range `s.syns[idx]` reads when an index list is longer than `s.syns`.
-/
def freeNSynapses (tp : TpState) (s : Segment) (numToFree : Int)
    (inactiveSynapseIndices : List Int) : Option Segment :=
  if numToFree > (s.syns.length : Int) then none
  else
    (if 0 < inactiveSynapseIndices.length then
      match permsOfPositions s.syns inactiveSynapseIndices.length with
      | none => none
      | some perms =>
        match argsortGo perms [] with
        | none => none
        | some indexes =>
          let cSize := min numToFree (perms.length : Int)
          if cSize < 0 then none
          else
            (List.range cSize.toNat).mapM
              (fun i => (indexes.get? i).bind
                (fun j => inactiveSynapseIndices.get? j))
    else some []).bind fun candidates =>
    (if (candidates.length : Int) < numToFree then
      let activeSynIndices := (List.range s.syns.length).filterMap
        (fun i => if containsInt (i : Int) inactiveSynapseIndices then none
                  else some (i : Int))
      match permsOfPositions s.syns activeSynIndices.length with
      | none => none
      | some perms =>
        match argsortGo perms [] with
        | none => none
        | some indexes =>
          let moreToFree := numToFree - (candidates.length : Int)
          ((List.range moreToFree.toNat).mapM
            (fun i => (indexes.get? i).bind
              (fun j => activeSynIndices.get? j))).map
            (fun more => candidates ++ more)
    else some candidates).bind fun candidates =>
    some { s with syns := (s.syns.enum.filterMap
      (fun p => if containsInt (p.1 : Int) candidates then none else some p.2)) }

/-- The body of one iteration of the `delta > 0` loop of `updateSynapses`:
add `delta`, cap at `PermanenceMax`; this branch never sets `hitZero`. -/
def updateSynStepPos (permanenceMax delta : ℚ) (syn : Synapse) : Synapse × Bool :=
  let p := syn.Permanence + delta
  if p > permanenceMax then ({ syn with Permanence := permanenceMax }, false)
  else ({ syn with Permanence := p }, false)

/-- The body of one iteration of the `delta <= 0` loop of `updateSynapses`:
add `delta`; if the result is `<= 0`, snap to `0` and flag `hitZero`. -/
def updateSynStepNeg (delta : ℚ) (syn : Synapse) : Synapse × Bool :=
  let p := syn.Permanence + delta
  if p ≤ 0 then ({ syn with Permanence := 0 }, true)
  else ({ syn with Permanence := p }, false)

/-- The Go loop `for idx, _ := range synapses { ...s.syns[idx]... }` touches
the synapse slice at positions `0, 1, ..., len(synapses)-1` (the *positions*
of the `synapses` argument — its values are discarded by `idx, _`).  Since
iteration `idx` reads and writes only position `idx`, the loop equals applying
the step to each of the first `n = len(synapses)` elements, OR-ing the
`hitZero` flags; a position past the end of the slice is a Go index-out-of-
range panic (`none`). -/
def updFirst (step : Synapse → Synapse × Bool) :
    Nat → List Synapse → Option (List Synapse × Bool)
  | 0, syns => some (syns, false)
  | _ + 1, [] => none
  | n + 1, syn :: rest =>
    let r := step syn
    match updFirst step n rest with
    | none => none
    | some (restUpd, hit) => some (r.1 :: restUpd, r.2 || hit)

/-- `func (s *Segment) updateSynapses(synapses []int, delta float64) bool`
from `segment.go`.  Returns the updated synapse list and the `hitZero` flag;
`none` models the index-out-of-range panic when `synapses` is longer than
`s.syns`. -/
def updateSynapses (tp : TpState) (syns : List Synapse) (synapses : List Int)
    (delta : ℚ) : Option (List Synapse × Bool) :=
  if delta > 0 then
    updFirst (updateSynStepPos tp.params.PermanenceMax delta) synapses.length syns
  else
    updFirst (updateSynStepNeg delta) synapses.length syns

/-- `func (s *Segment) AddSynapse(srcCellCol, srcCellIdx int, perm float64)`
from `segment.go`. -/
def AddSynapse (s : Segment) (srcCellCol srcCellIdx : Int) (perm : ℚ) : Segment :=
  { s with syns := s.syns ++ [⟨srcCellCol, srcCellIdx, perm⟩] }

/-- `type SynapseUpdateState struct` (zero value: `Index = 0`,
`CellIndex = 0`, `New = false`). -/
structure SynapseUpdateState where
  Index : Int
  CellIndex : Int
  New : Bool
deriving DecidableEq

/-- `type SegmentUpdate struct` as populated by `getSegmentActiveSynapses`. -/
structure SegmentUpdate where
  columnIdx : Int
  cellIdx : Int
  segment : Option Segment
  activeSynapses : List SynapseUpdateState
deriving DecidableEq

/-- The loop `for idx, val := range s.syns { if activeState.Get(val.SrcCellCol,
val.SrcCellIdx) { temp := SynapseUpdateState{}; temp.Index = idx; append } }`
of `getSegmentActiveSynapses`, with `idx` starting at `n`.  The zero value of
`SynapseUpdateState` leaves `CellIndex = 0` and `New = false`. -/
def scanSyns (activeState : Int → Int → Bool) : List Synapse → Nat → List SynapseUpdateState
  | [], _ => []
  | syn :: rest, n =>
    if activeState syn.SrcCellCol syn.SrcCellIdx then
      ⟨(n : Int), 0, false⟩ :: scanSyns activeState rest (n + 1)
    else scanSyns activeState rest (n + 1)

/-- `func (tp *TemporalPooler) getSegmentActiveSynapses(c int, i int,
s *Segment, activeState *SparseBinaryMatrix, newSynapses bool) *SegmentUpdate`
from `segment.go`.  Modelled from the spec where the collaborators live
outside `src/`: `activeState` is the spec's "`activeState` lookup
(column,cell) → bool" (`SparseBinaryMatrix.Get`), and `chooseCellsToLearnFrom`
is the spec's external cell-selection policy returning a list of
(`Row` = column, `Col` = cell) pairs, passed here as a function parameter. -/
def getSegmentActiveSynapses (tp : TpState)
    (chooseCellsToLearnFrom : Option Segment → Int → (Int → Int → Bool) → List (Int × Int))
    (c i : Int) (s : Option Segment) (activeState : Int → Int → Bool)
    (newSynapses : Bool) : SegmentUpdate :=
  let activeSynapses : List SynapseUpdateState :=
    match s with
    | none => []
    | some seg => scanSyns activeState seg.syns 0
  let activeSynapses :=
    if newSynapses then
      let nSynapsesToAdd := tp.params.NewSynapseCount - (activeSynapses.length : Int)
      activeSynapses ++ (chooseCellsToLearnFrom s nSynapsesToAdd activeState).map
        (fun val => ⟨val.1, val.2, true⟩)
    else activeSynapses
  { columnIdx := c, cellIdx := i, segment := s, activeSynapses := activeSynapses }

/-- `func (s *Segment) ToString() string` from `segment.go`.  Integer and
boolean `%v` rendering match Go exactly (`toString` on `ℤ` is the decimal
form, `toString` on `Bool` is `true`/`false`); `%v` rendering of a `float64`
(shortest round-trip decimal) has no exact counterpart over `ℚ` and is
abstracted as the parameter `fmtF`. -/
def ToString (fmtF : ℚ → String) (tp : TpState) (s : Segment) : String :=
  let result := "ID:" ++ toString s.segId ++ " " ++ toString s.isSequenceSeg ++ " "
  let result := result ++ fmtF (dutyCycle tp s false true).1
  let result := result ++ " (" ++ toString s.positiveActivations ++ "/"
    ++ toString s.totalActivations ++ ") "
  let result := result ++ toString (tp.lrnIterationIdx - s.lastActiveIteration)
  let result := s.syns.foldl
    (fun acc syn => acc ++ (" [" ++ toString syn.SrcCellCol ++ ","
      ++ toString syn.SrcCellIdx ++ "]" ++ fmtF syn.Permanence)) result
  result ++ "\n"

/-- The claim's alpha selection rule, stated in its own words: "the alpha
paired with the largest tier threshold that is ≤ the current iteration" in
the tier table. -/
def specAlphaLE (idx : Int) : ℚ :=
  if 320000 ≤ idx then 0.0000010
  else if 100000 ≤ idx then 0.0000032
  else if 32000 ≤ idx then 0.00001
  else if 10000 ≤ idx then 0.000032
  else if 3200 ≤ idx then 0.00010
  else if 1000 ≤ idx then 0.00032
  else if 320 ≤ idx then 0.0010
  else if 100 ≤ idx then 0.0032
  else 0

/-- The amended alpha selection rule: the alpha paired with the largest tier
threshold that is *strictly less than* the current iteration. -/
def specAlphaLT (idx : Int) : ℚ :=
  if 320000 < idx then 0.0000010
  else if 100000 < idx then 0.0000032
  else if 32000 < idx then 0.00001
  else if 10000 < idx then 0.000032
  else if 3200 < idx then 0.00010
  else if 1000 < idx then 0.00032
  else if 320 < idx then 0.0010
  else if 100 < idx then 0.0032
  else 0

/-- Concrete parameter block used by the concrete-input theorems below. -/
def tpParamsEx : TpParams := { PermanenceMax := 1, NewSynapseCount := 3 }

/-- Concrete pooler state for the `freeNSynapses` / `updateSynapses`
evaluations (the learning iteration is irrelevant to those calls). -/
def tpEx : TpState := { lrnIterationIdx := 10, nextSegId := 0, params := tpParamsEx }

/-- A segment holding a single synapse. -/
def segOne : Segment :=
  { segId := 1, isSequenceSeg := false, lastActiveIteration := 0,
    positiveActivations := 1, totalActivations := 1,
    lastPosDutyCycle := 1, lastPosDutyCycleIteration := 1,
    syns := [⟨0, 0, 1/2⟩] }

/-- A segment holding three synapses with permanences `0.1`, `0.9`, `0.5`
(positions 0, 1, 2). -/
def segThree : Segment :=
  { segId := 2, isSequenceSeg := false, lastActiveIteration := 0,
    positiveActivations := 1, totalActivations := 1,
    lastPosDutyCycle := 1, lastPosDutyCycleIteration := 1,
    syns := [⟨0, 0, 1/10⟩, ⟨0, 1, 9/10⟩, ⟨0, 2, 1/2⟩] }

/-- Pooler state sitting exactly at the tier boundary `lrnIterationIdx = 320`. -/
def tpBoundary : TpState :=
  { lrnIterationIdx := 320, nextSegId := 0, params := tpParamsEx }

/-- Segment whose duty-cycle cache is one iteration old (`age = 1`) with
cached value `1`. -/
def segBoundary : Segment :=
  { segId := 3, isSequenceSeg := false, lastActiveIteration := 300,
    positiveActivations := 10, totalActivations := 20,
    lastPosDutyCycle := 1, lastPosDutyCycleIteration := 319,
    syns := [] }

/-- Pooler state in tier 0 (`lrnIterationIdx = 4`). -/
def tpTierZero : TpState :=
  { lrnIterationIdx := 4, nextSegId := 0, params := tpParamsEx }

/-- Segment with 3 positive activations, used with `tpTierZero`. -/
def segTierZero : Segment :=
  { segId := 4, isSequenceSeg := true, lastActiveIteration := 2,
    positiveActivations := 3, totalActivations := 4,
    lastPosDutyCycle := 1/2, lastPosDutyCycleIteration := 2,
    syns := [] }

/-- Pooler state just past tier 0 (`lrnIterationIdx = 101`), used by the
moving-average witness. -/
def tpEma : TpState :=
  { lrnIterationIdx := 101, nextSegId := 0, params := tpParamsEx }

/-- Segment with an age-1 cache (`lastPosDutyCycleIteration = 100`) and cached
value `1/2`, used with `tpEma`. -/
def segEma : Segment :=
  { segId := 5, isSequenceSeg := false, lastActiveIteration := 90,
    positiveActivations := 7, totalActivations := 9,
    lastPosDutyCycle := 1/2, lastPosDutyCycleIteration := 100,
    syns := [] }

/-! ## Helper lemmas -/

theorem tiers_getD_one : SegmentDutyCycleTiers.getD 1 0 = 100 := rfl

theorem segAlpha_eq_specAlphaLT (idx : Int) : segAlpha idx = specAlphaLT idx := by
  simp only [segAlpha, alphaScanGo,
    show SegmentDutyCycleTiers.getD 8 0 = 320000 from rfl,
    show SegmentDutyCycleTiers.getD 7 0 = 100000 from rfl,
    show SegmentDutyCycleTiers.getD 6 0 = 32000 from rfl,
    show SegmentDutyCycleTiers.getD 5 0 = 10000 from rfl,
    show SegmentDutyCycleTiers.getD 4 0 = 3200 from rfl,
    show SegmentDutyCycleTiers.getD 3 0 = 1000 from rfl,
    show SegmentDutyCycleTiers.getD 2 0 = 320 from rfl,
    show SegmentDutyCycleTiers.getD 1 0 = 100 from rfl,
    show SegmentDutyCycleAlphas.getD 8 0 = 0.0000010 from rfl,
    show SegmentDutyCycleAlphas.getD 7 0 = 0.0000032 from rfl,
    show SegmentDutyCycleAlphas.getD 6 0 = 0.00001 from rfl,
    show SegmentDutyCycleAlphas.getD 5 0 = 0.000032 from rfl,
    show SegmentDutyCycleAlphas.getD 4 0 = 0.00010 from rfl,
    show SegmentDutyCycleAlphas.getD 3 0 = 0.00032 from rfl,
    show SegmentDutyCycleAlphas.getD 2 0 = 0.0010 from rfl,
    show SegmentDutyCycleAlphas.getD 1 0 = 0.0032 from rfl,
    specAlphaLT]

theorem updFirst_snd_false (step : Synapse → Synapse × Bool)
    (hstep : ∀ syn, (step syn).2 = false) :
    ∀ (n : Nat) (syns : List Synapse) (r : List Synapse × Bool),
      updFirst step n syns = some r → r.2 = false := by
  intro n
  induction n with
  | zero =>
    intro syns r h
    simp only [updFirst] at h
    obtain rfl := Option.some.inj h
    rfl
  | succ n ih =>
    intro syns r h
    cases syns with
    | nil => simp [updFirst] at h
    | cons syn rest =>
      simp only [updFirst] at h
      cases hrec : updFirst step n rest with
      | none => rw [hrec] at h; simp at h
      | some pr =>
        obtain ⟨restUpd, hit⟩ := pr
        rw [hrec] at h
        obtain rfl := Option.some.inj h
        have h2 : hit = false := by
          have := ih rest (restUpd, hit) hrec
          simpa using this
        simp [hstep syn, h2]

theorem scanSyns_eq_enumFrom (activeState : Int → Int → Bool) :
    ∀ (l : List Synapse) (n : Nat),
      scanSyns activeState l n = (List.enumFrom n l).filterMap
        (fun p => if activeState p.2.SrcCellCol p.2.SrcCellIdx
                  then some ⟨(p.1 : Int), 0, false⟩ else none) := by
  intro l
  induction l with
  | nil => intro n; rfl
  | cons syn rest ih =>
    intro n
    rw [List.enumFrom, List.filterMap_cons]
    by_cases hact : activeState syn.SrcCellCol syn.SrcCellIdx
    · simp only [scanSyns, hact, if_true, if_pos]
      rw [ih]
    · simp only [scanSyns, hact, if_false, if_neg]
      rw [ih]
      simp [hact]

theorem string_append_assoc (a b c : String) : a ++ b ++ c = a ++ (b ++ c):= by
  apply String.ext
  simp [String.data_append, List.append_assoc]

theorem string_append_empty (a : String) : a ++ "" = a := by
  apply String.ext
  simp [String.data_append, show ("" : String).data = [] from rfl]

theorem string_empty_append (a : String) : "" ++ a = a := by
  apply String.ext
  simp [String.data_append, show ("" : String).data = [] from rfl]

theorem string_foldl_append (xs : List String) : ∀ acc : String,
    xs.foldl (· ++ ·) acc = acc ++ xs.foldl (· ++ ·) "" := by
  induction xs with
  | nil =>
    intro acc
    simp only [List.foldl]
    exact (string_append_empty acc).symm
  | cons x xs ih =>
    intro acc
    simp only [List.foldl]
    rw [ih (acc ++ x), ih ("" ++ x), string_empty_append, string_append_assoc]

theorem string_join_cons (x : String) (xs : List String) :
    String.join (x :: xs) = x ++ String.join xs := by
  simp only [String.join, List.foldl]
  rw [string_foldl_append xs ("" ++ x), string_empty_append]

theorem string_foldl_format (f : Synapse → String) :
    ∀ (l : List Synapse) (acc : String),
      l.foldl (fun a syn => a ++ f syn) acc = acc ++ String.join (l.map f) := by
  intro l
  induction l with
  | nil =>
    intro acc
    simp only [List.foldl, List.map, String.join]
    exact (string_append_empty acc).symm
  | cons syn rest ih =>
    intro acc
    simp only [List.foldl, List.map]
    rw [ih (acc ++ f syn), string_join_cons, string_append_assoc]

/-! ## Claim theorems -/

/-- C1: the claim says `freeNSynapses` frees the lowest-permanence inactive
synapses first.  Counter-evaluation: in `segThree` the synapse permanences are
`[0.1, 0.9, 0.5]`, the inactive synapses are `[1, 2]` and `numToFree = 1 ≤ 3`,
so the claim requires synapse `2` (permanence `0.5`, the lowest among the
inactive ones) to be freed, returning a segment with synapses `[0, 1]`.  The
code instead aborts (models a Go panic): it hands the never-allocated nil
`indexes` slice to `floats.Argsort` and then indexes into it, and — even
granting a working argsort — it fills the sort keys positionally from
`s.syns[idx]` for `idx = 0, 1` (permanences `0.1, 0.9`) instead of from
`s.syns[inactiveSynapseIndices[idx]]` (permanences `0.9, 0.5`), which would
select synapse `1` (permanence `0.9`), not synapse `2`. -/
theorem freeNSynapses_inactive_policy_cex :
    (1 : Int) ≤ (segThree.syns.length : Int) ∧
    freeNSynapses tpEx segThree 1 [1, 2] = none := ⟨by decide, rfl⟩

/-- C2: the claim says `updateSynapses(synapses, delta)` adds `delta` to
exactly the named synapses.  Counter-evaluation: with two synapses of
permanence `0.5`, `synapses = [1]` and `delta = 0.1`, the code adds `delta`
to synapse `0` (the loop uses the range *position* and discards the listed
index value), leaving the named synapse `1` unchanged; the claim requires
`some ([⟨0,0,0.5⟩, ⟨0,1,0.6⟩], false)` instead. -/
theorem updateSynapses_named_indices_cex :
    updateSynapses tpEx [⟨0, 0, 1/2⟩, ⟨0, 1, 1/2⟩] [1] (1/10)
      = some ([⟨0, 0, 3/5⟩, ⟨0, 1, 1/2⟩], false) := by
  simp only [updateSynapses, updFirst, updateSynStepPos, tpEx, tpParamsEx]
  norm_num

/-- C3 (counterexample): at the tier boundary `lrnIterationIdx = 320` with
`age = 1`, cached duty cycle `1` and `active = false`, the code selects
`alpha = 0.0032` (largest tier *strictly below* 320) and returns
`0.9968 = 623/625`, while the claim's rule "largest tier threshold ≤ the
current iteration" selects `alpha = 0.0010` and predicts `0.999`. -/
theorem dutyCycle_tier_boundary_cex :
    (dutyCycle tpBoundary segBoundary false true).1 ≠
      (1 - specAlphaLE tpBoundary.lrnIterationIdx)
          ^ (tpBoundary.lrnIterationIdx - segBoundary.lastPosDutyCycleIteration)
          * segBoundary.lastPosDutyCycle
        + (if (false : Bool) then specAlphaLE tpBoundary.lrnIterationIdx else 0) := by
  have e1 : segAlpha 320 = 0.0032 := by
    rw [segAlpha_eq_specAlphaLT]
    norm_num [specAlphaLT]
  have e2 : specAlphaLE 320 = 0.0010 := by
    norm_num [specAlphaLE]
  simp only [dutyCycle, tpBoundary, segBoundary, tpParamsEx, tiers_getD_one]
  norm_num [e1, e2, zpow_one]

/-- C3 (amended): for `lrnIterationIdx > 100` and a stale cache or an active
step, `dutyCycle` returns `(1-alpha)^age * lastPosDutyCycle +
(active ? alpha : 0)` where `age = lrnIterationIdx -
lastPosDutyCycleIteration` and `alpha` is the alpha paired with the largest
tier threshold *strictly less than* the current iteration. -/
theorem dutyCycle_ema_formula (tp : TpState) (s : Segment) (active readOnly : Bool)
    (h1 : (100 : Int) < tp.lrnIterationIdx)
    (h2 : tp.lrnIterationIdx - s.lastPosDutyCycleIteration ≠ 0 ∨ active = true) :
    (dutyCycle tp s active readOnly).1 =
      (1 - specAlphaLT tp.lrnIterationIdx)
          ^ (tp.lrnIterationIdx - s.lastPosDutyCycleIteration)
          * s.lastPosDutyCycle
        + (if active then specAlphaLT tp.lrnIterationIdx else 0) := by
  have hng : ¬ tp.lrnIterationIdx ≤ SegmentDutyCycleTiers.getD 1 0 := by
    rw [tiers_getD_one]; omega
  have hguard : ¬ (tp.lrnIterationIdx - s.lastPosDutyCycleIteration = 0 ∧ active = false) := by
    rcases h2 with h | h
    · exact fun hc => h hc.1
    · intro hc
      rw [h] at hc
      exact absurd hc.2 (by simp)
  simp only [dutyCycle]
  rw [if_neg hng, if_neg hguard, segAlpha_eq_specAlphaLT]
  cases active <;> cases readOnly <;> simp

/-- Witness for C3 (amended) at `lrnIterationIdx = 101`, `age = 1`,
cached value `1/2`, `active = false`, `readOnly = true`. -/
theorem dutyCycle_ema_formula_witness :
    (100 : Int) < tpEma.lrnIterationIdx ∧
    (dutyCycle tpEma segEma false true).1 =
      (1 - specAlphaLT tpEma.lrnIterationIdx)
          ^ (tpEma.lrnIterationIdx - segEma.lastPosDutyCycleIteration)
          * segEma.lastPosDutyCycle
        + (if (false : Bool) then specAlphaLT tpEma.lrnIterationIdx else 0) :=
  ⟨by decide, dutyCycle_ema_formula tpEma segEma false true (by decide)
    (Or.inl (by decide))⟩

/-- C4: the claim says `freeNSynapses` aborts when `numToFree` exceeds the
synapse count, and otherwise removes exactly `numToFree` synapses.  The first
half holds (first conjunct: `numToFree = 2 > 1` aborts).  The second half
fails: with one synapse, `numToFree = 1 ≤ 1` and no inactive indices, the
code must free exactly one synapse but instead aborts (second conjunct),
because it passes the nil `indexes` slice to `floats.Argsort` and reads
`indexes[0]` — a Go panic on every call that actually has to free
something. -/
theorem freeNSynapses_count_cex :
    freeNSynapses tpEx segOne 2 [] = none ∧
    freeNSynapses tpEx segOne 1 [] = none := ⟨rfl, rfl⟩

/-- C5: in tier 0 (`1 ≤ lrnIterationIdx ≤ 100`) `dutyCycle` returns exactly
`positiveActivations / lrnIterationIdx`, for both values of `active` and both
values of `readOnly`. -/
theorem dutyCycle_tierZero (tp : TpState) (s : Segment) (active readOnly : Bool)
    (h1 : 1 ≤ tp.lrnIterationIdx) (h2 : tp.lrnIterationIdx ≤ 100) :
    (dutyCycle tp s active readOnly).1 =
      (s.positiveActivations : ℚ) / (tp.lrnIterationIdx : ℚ) := by
  have hle : tp.lrnIterationIdx ≤ SegmentDutyCycleTiers.getD 1 0 := by
    rw [tiers_getD_one]; omega
  simp only [dutyCycle]
  rw [if_pos hle]
  cases readOnly <;> simp

/-- Witness for C5 at `lrnIterationIdx = 4`, `positiveActivations = 3`. -/
theorem dutyCycle_tierZero_witness :
    1 ≤ tpTierZero.lrnIterationIdx ∧ tpTierZero.lrnIterationIdx ≤ 100 ∧
    (dutyCycle tpTierZero segTierZero true false).1 =
      (segTierZero.positiveActivations : ℚ) / (tpTierZero.lrnIterationIdx : ℚ) :=
  ⟨by decide, by decide,
   dutyCycle_tierZero tpTierZero segTierZero true false (by decide) (by decide)⟩

/-- C6: `dutyCycle` with `readOnly = true` leaves the segment (all fields,
including `lastPosDutyCycle` and `lastPosDutyCycleIteration`) unchanged and
returns the same value as the non-read-only call, for every segment and both
values of `active`. -/
theorem dutyCycle_readOnly_frame (tp : TpState) (s : Segment) (active : Bool) :
    (dutyCycle tp s active true).2 = s ∧
    (dutyCycle tp s active true).1 = (dutyCycle tp s active false).1 := by
  constructor <;>
    · simp only [dutyCycle]
      split <;> simp <;> split <;> simp

/-- C7: `getSegmentActiveSynapses` accepts a nil segment and yields an empty
base active-synapse list (first conjunct); for a non-nil segment the base
list holds exactly the indices of synapses whose source `(column, cell)` is
active per `activeState` (second conjunct); with `newSynapses = true` the
result is that same base list with only new-synapse proposals appended
(third conjunct); and the call never mutates the segment — it only builds a
`SegmentUpdate` proposal referencing the unchanged segment (fourth
conjunct; the embedding of the function is pure and returns no modified
segment). -/
theorem getSegmentActiveSynapses_spec (tp : TpState)
    (choose : Option Segment → Int → (Int → Int → Bool) → List (Int × Int))
    (c i : Int) (activeState : Int → Int → Bool) (ns : Bool) (seg : Segment)
    (s : Option Segment) :
    (getSegmentActiveSynapses tp choose c i none activeState false).activeSynapses = [] ∧
    (getSegmentActiveSynapses tp choose c i (some seg) activeState false).activeSynapses
      = seg.syns.enum.filterMap
          (fun p => if activeState p.2.SrcCellCol p.2.SrcCellIdx
                    then some ⟨(p.1 : Int), 0, false⟩ else none) ∧
    (getSegmentActiveSynapses tp choose c i s activeState true).activeSynapses
      = (getSegmentActiveSynapses tp choose c i s activeState false).activeSynapses
        ++ (choose s (tp.params.NewSynapseCount
              - ((getSegmentActiveSynapses tp choose c i s activeState
                    false).activeSynapses.length : Int)) activeState).map
            (fun val => ⟨val.1, val.2, true⟩) ∧
    (getSegmentActiveSynapses tp choose c i s activeState ns).segment = s := by
  refine ⟨rfl, ?_, ?_, rfl⟩
  · have := scanSyns_eq_enumFrom activeState seg.syns 0
    simpa [getSegmentActiveSynapses, List.enum] using this
  · cases s <;> simp [getSegmentActiveSynapses]

/-- C8: `ToString` produces exactly the debug line
`ID:<id> <isSequenceSegment> <dutyCycle> (<positiveActivations>/<totalActivations>) <age> [<col>,<cell>]<perm> ...`
terminated by a newline, where `<age>` is `lrnIterationIdx -
lastActiveIteration` (iterations since last active) and the synapses appear
in stored order; the rendering of the two `float64` quantities is the
abstracted parameter `fmtF` (integers and booleans render exactly as Go's
`%v`). -/
theorem segment_ToString_format (fmtF : ℚ → String) (tp : TpState) (s : Segment) :
    ToString fmtF tp s =
      "ID:" ++ toString s.segId ++ " " ++ toString s.isSequenceSeg ++ " "
        ++ fmtF (dutyCycle tp s false true).1
        ++ " (" ++ toString s.positiveActivations ++ "/"
        ++ toString s.totalActivations ++ ") "
        ++ toString (tp.lrnIterationIdx - s.lastActiveIteration)
        ++ String.join (s.syns.map (fun syn =>
             " [" ++ toString syn.SrcCellCol ++ "," ++ toString syn.SrcCellIdx
               ++ "]" ++ fmtF syn.Permanence))
        ++ "\n" := by
  simp only [ToString]
  rw [string_foldl_format]

/-- C9: `NewSegment` initializes `positiveActivations = totalActivations = 1`,
`lastActiveIteration = lastPosDutyCycleIteration = lrnIterationIdx`, and
`lastPosDutyCycle = 1 / lrnIterationIdx` (the division carries no guard in the
source); whenever `lrnIterationIdx ≥ 1` this initial duty cycle is a
well-defined positive value. -/
theorem newSegment_init (tp : TpState) (isSeq : Bool) :
    (NewSegment tp isSeq).positiveActivations = 1 ∧
    (NewSegment tp isSeq).totalActivations = 1 ∧
    (NewSegment tp isSeq).lastActiveIteration = tp.lrnIterationIdx ∧
    (NewSegment tp isSeq).lastPosDutyCycleIteration = tp.lrnIterationIdx ∧
    (NewSegment tp isSeq).lastPosDutyCycle = 1 / (tp.lrnIterationIdx : ℚ) ∧
    (1 ≤ tp.lrnIterationIdx → 0 < (NewSegment tp isSeq).lastPosDutyCycle) := by
  refine ⟨rfl, rfl, rfl, rfl, rfl, fun h => ?_⟩
  have hpos : (0 : ℚ) < (tp.lrnIterationIdx : ℚ) := by
    exact_mod_cast (by omega : (0 : Int) < tp.lrnIterationIdx)
  show (0 : ℚ) < 1 / (tp.lrnIterationIdx : ℚ)
  exact one_div_pos.mpr hpos

/-- Witness for C9 at `lrnIterationIdx = 10`. -/
theorem newSegment_init_witness :
    (NewSegment tpEx true).positiveActivations = 1 ∧
    0 < (NewSegment tpEx true).lastPosDutyCycle :=
  ⟨(newSegment_init tpEx true).1,
   (newSegment_init tpEx true).2.2.2.2.2 (by decide)⟩

/-- C10: whenever `delta > 0`, any normal return of `updateSynapses` carries
`hitZero = false` — the pruning signal can only arise on the
non-positive-delta path. -/
theorem updateSynapses_positive_no_hitZero (tp : TpState) (syns : List Synapse)
    (synapses : List Int) (delta : ℚ) (h : delta > 0)
    (r : List Synapse × Bool) (hr : updateSynapses tp syns synapses delta = some r) :
    r.2 = false := by
  unfold updateSynapses at hr
  rw [if_pos h] at hr
  refine updFirst_snd_false _ (fun syn => ?_) _ _ _ hr
  simp only [updateSynStepPos]
  split <;> rfl

/-- Witness for C10 at `delta = 1` on a single-synapse list. -/
theorem updateSynapses_positive_no_hitZero_witness :
    (1 : ℚ) > 0 ∧ (([⟨0, 0, 1⟩], false) : List Synapse × Bool).2 = false :=
  ⟨by norm_num,
   updateSynapses_positive_no_hitZero tpEx [⟨0, 0, 1/2⟩] [0] 1 (by norm_num)
     ([⟨0, 0, 1⟩], false)
     (by simp only [updateSynapses, updFirst, updateSynStepPos, tpEx, tpParamsEx]
         norm_num)⟩

end Htm
